import Mathlib

/-!
Verification of the document-flow composer and anchor-derivation logic of
the PERMAFROST whitepaper build script
(src/docs/cryptography/permafrost-whitepaper-build.py).

The embedding models:
* `_make_anchor` (anchor derivation from heading text), including the
  HTML-tag stripping, the numbering-token regex
  `^(\d+\.[\d.]*\s*|Appendix\s+[A-Z][\.:]\s*)` with its normalization
  chain `.strip().rstrip(.).replace(., _).replace(space, _).replace(:, )`,
  and the first-four-words fallback;
* the TOC anchor computation of the toc-entries loop;
* the buffered-heading composer (`_flush_heading`, `_flush_heading_with`,
  `section_heading`, `sub_heading`, `sub_sub_heading`, `body`, `spacer`,
  and the trailing flush that ends the script).

Strings are modelled as `List Char`.  The regex digit class `\d` is
modelled as the Unicode decimal digits (category Nd), as Python matches
it on `str` patterns; the whitespace class `\s` is modelled on its ASCII
part, which coincides with Python's class on all-ASCII input.
-/

namespace Permafrost

/-- Python whitespace class `\s` (ASCII part): space, tab, newline,
carriage return, vertical tab, form feed, and the ASCII separators
U+001C through U+001F, which Python's `str.isspace`/regex whitespace
also accepts.  On all-ASCII input this is exactly Python's `\s`. -/
def pySpace (c : Char) : Bool :=
  c = ' ' || c = '\t' || c = '\n' || c = '\r' || c = '\x0b' || c = '\x0c' ||
    c = '\x1c' || c = '\x1d' || c = '\x1e' || c = '\x1f'

/-- ASCII digit `[0-9]`. -/
def isDigitA (c : Char) : Bool := 48 ≤ c.toNat && c.toNat ≤ 57

/-- The decimal-digit (category Nd) ranges of the Unicode character
database above U+0660; together with ASCII `[0-9]` these are the
characters Python's `str`-pattern `\d` matches. -/
def ndRanges : List (Nat × Nat) := [
    (0x660, 0x669), (0x6F0, 0x6F9), (0x7C0, 0x7C9), (0x966, 0x96F),
    (0x9E6, 0x9EF), (0xA66, 0xA6F), (0xAE6, 0xAEF), (0xB66, 0xB6F),
    (0xBE6, 0xBEF), (0xC66, 0xC6F), (0xCE6, 0xCEF), (0xD66, 0xD6F),
    (0xDE6, 0xDEF), (0xE50, 0xE59), (0xED0, 0xED9), (0xF20, 0xF29),
    (0x1040, 0x1049), (0x1090, 0x1099), (0x17E0, 0x17E9), (0x1810, 0x1819),
    (0x1946, 0x194F), (0x19D0, 0x19D9), (0x1A80, 0x1A89), (0x1A90, 0x1A99),
    (0x1B50, 0x1B59), (0x1BB0, 0x1BB9), (0x1C40, 0x1C49), (0x1C50, 0x1C59),
    (0xA620, 0xA629), (0xA8D0, 0xA8D9), (0xA900, 0xA909), (0xA9D0, 0xA9D9),
    (0xA9F0, 0xA9F9), (0xAA50, 0xAA59), (0xABF0, 0xABF9), (0xFF10, 0xFF19),
    (0x104A0, 0x104A9), (0x10D30, 0x10D39), (0x11066, 0x1106F),
    (0x110F0, 0x110F9), (0x11136, 0x1113F), (0x111D0, 0x111D9),
    (0x112F0, 0x112F9), (0x11450, 0x11459), (0x114D0, 0x114D9),
    (0x11650, 0x11659), (0x116C0, 0x116C9), (0x11730, 0x11739),
    (0x118E0, 0x118E9), (0x11950, 0x11959), (0x11C50, 0x11C59),
    (0x11D50, 0x11D59), (0x11DA0, 0x11DA9), (0x16A60, 0x16A69),
    (0x16AC0, 0x16AC9), (0x16B50, 0x16B59), (0x1D7CE, 0x1D7FF),
    (0x1E140, 0x1E149), (0x1E2F0, 0x1E2F9), (0x1E4F0, 0x1E4F9),
    (0x1E950, 0x1E959), (0x1FBF0, 0x1FBF9)]

/-- Python regex `\d` on `str` patterns: any Unicode decimal digit.
The first non-ASCII decimal-digit block starts at U+0660, so below that
bound the class is exactly `[0-9]`. -/
def pyDigit (c : Char) : Bool :=
  if c.toNat < 0x660 then isDigitA c
  else ndRanges.any (fun p => p.1 ≤ c.toNat && c.toNat ≤ p.2)

/-- ASCII uppercase letter `[A-Z]`. -/
def isUpperA (c : Char) : Bool := 65 ≤ c.toNat && c.toNat ≤ 90

/-- ASCII lowercase letter `[a-z]`. -/
def isLowerA (c : Char) : Bool := 97 ≤ c.toNat && c.toNat ≤ 122

/-- ASCII alphanumeric `[a-zA-Z0-9]`. -/
def isAsciiAlnum (c : Char) : Bool := isDigitA c || isUpperA c || isLowerA c

/-- Python `str.lower()` on a single ASCII character. -/
def pyLowerChar (c : Char) : Char :=
  if isUpperA c then Char.ofNat (c.toNat + 32) else c

/-- The characters the numbering regex can put into a matched token:
decimal digits, dots, whitespace, ASCII letters, colon. -/
def tokChar (c : Char) : Bool :=
  pyDigit c || c = '.' || pySpace c || isUpperA c || isLowerA c || c = ':'

/-- A character safe inside an `<a name="..."/>` attribute: ASCII
alphanumeric or underscore. -/
def anchorChar (c : Char) : Bool := isAsciiAlnum c || c = '_'

/-! ### HTML tag stripping: `re.sub(r'<[^>]+>', '', text)` -/

/-- Drop characters up to and including the first `>`;
`none` if there is no `>`. -/
def afterGt : List Char → Option (List Char)
  | [] => none
  | c :: rest => if c = '>' then some rest else afterGt rest

/-- Given the characters after a `<`, try to complete a match of
`<[^>]+>` (at least one non-`>` character, then `>`); returns the
remainder after the closing `>`. -/
def tryTag : List Char → Option (List Char)
  | [] => none
  | c :: rest => if c = '>' then none else afterGt rest

theorem afterGt_length : ∀ l l', afterGt l = some l' → l'.length < l.length := by
  intro l
  induction l with
  | nil => intro l' h; simp [afterGt] at h
  | cons c rest ih =>
    intro l' h
    simp only [afterGt] at h
    split at h
    · cases h; simp
    · exact Nat.lt_trans (ih l' h) (by simp)

theorem tryTag_length : ∀ l l', tryTag l = some l' → l'.length < l.length := by
  intro l l' h
  cases l with
  | nil => simp [tryTag] at h
  | cons c rest =>
    simp only [tryTag] at h
    split at h
    · cases h
    · exact Nat.lt_trans (afterGt_length rest l' h) (by simp)

/-- Fuel-indexed left-to-right scan removing every match of `<[^>]+>`.
With fuel at least the length of the list the fuel never runs out. -/
def stripTagsFuel : Nat → List Char → List Char
  | 0, l => l
  | _ + 1, [] => []
  | n + 1, c :: rest =>
    if c = '<' then
      match tryTag rest with
      | some rest' => stripTagsFuel n rest'
      | none => c :: stripTagsFuel n rest
    else
      c :: stripTagsFuel n rest

/-- `re.sub(r'<[^>]+>', '', text)` on a character list. -/
def stripTagsL (l : List Char) : List Char := stripTagsFuel l.length l

/-! ### The numbering-token regex
`re.match(r'^(\d+\.[\d.]*\s*|Appendix\s+[A-Z][\.:]\s*)', clean)` -/

/-- First alternative `\d+\.[\d.]*\s*`: one or more decimal digits, a
dot, any run of digits/dots, any run of whitespace.  Returns the
matched prefix. -/
def numToken (l : List Char) : Option (List Char) :=
  let ds := l.takeWhile pyDigit
  let r1 := l.dropWhile pyDigit
  if ds.isEmpty then none
  else
    match r1 with
    | '.' :: r2 =>
      let dd := r2.takeWhile (fun c => pyDigit c || c = '.')
      let r3 := r2.dropWhile (fun c => pyDigit c || c = '.')
      some (ds ++ '.' :: dd ++ r3.takeWhile pySpace)
    | _ => none

/-- Second alternative `Appendix\s+[A-Z][\.:]\s*`. -/
def appendixToken (l : List Char) : Option (List Char) :=
  if l.take 8 = "Appendix".data then
    let r0 := l.drop 8
    let ws1 := r0.takeWhile pySpace
    let r1 := r0.dropWhile pySpace
    if ws1.isEmpty then none
    else
      match r1 with
      | c :: d :: r3 =>
        if isUpperA c && (d = '.' || d = ':') then
          some ("Appendix".data ++ ws1 ++ c :: d :: r3.takeWhile pySpace)
        else none
      | _ => none
  else none

/-- The anchored, ordered alternation of the two branches (Python `re`
tries the left alternative first; the two have disjoint first
characters). -/
def matchNumbering (l : List Char) : Option (List Char) :=
  match numToken l with
  | some t => some t
  | none => appendixToken l

/-! ### Normalization of a matched token:
`.strip().rstrip('.').replace('.', '_').replace(' ', '_').replace(':', '')` -/

/-- Python `str.strip()`: drop whitespace from both ends. -/
def pyStripL (l : List Char) : List Char :=
  ((l.dropWhile pySpace).reverse.dropWhile pySpace).reverse

/-- Python `str.rstrip('.')`: drop trailing dots. -/
def rstripDots (l : List Char) : List Char :=
  (l.reverse.dropWhile (fun c => c = '.')).reverse

/-- Python `str.replace(a, b)` for single characters. -/
def replAll (a b : Char) (l : List Char) : List Char :=
  l.map (fun c => if c = a then b else c)

/-- Python `str.replace(a, '')` for a single character: removal. -/
def removeAll (a : Char) (l : List Char) : List Char :=
  l.filter (fun c => c ≠ a)

/-- The whole normalization chain applied to the matched group. -/
def normalizeTok (tok : List Char) : List Char :=
  removeAll ':' (replAll ' ' '_' (replAll '.' '_' (rstripDots (pyStripL tok))))

/-! ### The fallback: first four words, lower-cased, joined by `_` -/

/-- Python `str.split()` (split on whitespace runs, no empty words),
with an accumulator holding the current word reversed. -/
def splitWsAux : List Char → List Char → List (List Char)
  | [], acc => if acc.isEmpty then [] else [acc.reverse]
  | c :: rest, acc =>
    if pySpace c then
      if acc.isEmpty then splitWsAux rest []
      else acc.reverse :: splitWsAux rest []
    else splitWsAux rest (c :: acc)

def splitWs (l : List Char) : List (List Char) := splitWsAux l []

/-- `'_'.join(words)`. -/
def joinUnd : List (List Char) → List Char
  | [] => []
  | [w] => w
  | w :: ws => w ++ '_' :: joinUnd ws

/-- The fallback branch:
`re.sub(r'[^a-zA-Z0-9\s]', '', clean).split()[:4]`, each word
lower-cased, joined with `_`. -/
def fallbackWords (clean : List Char) : List Char :=
  let filtered := clean.filter (fun c => isAsciiAlnum c || pySpace c)
  joinUnd (((splitWs filtered).take 4).map (fun w => w.map pyLowerChar))

/-- `_make_anchor` on a character list. -/
def makeAnchorL (text : List Char) : List Char :=
  let clean := stripTagsL text
  match matchNumbering clean with
  | some tok => "sec_".data ++ normalizeTok tok
  | none => "sec_".data ++ fallbackWords clean

/-- `_make_anchor(text)`: generate a safe anchor ID from heading text. -/
def make_anchor (s : String) : String := ⟨makeAnchorL s.data⟩


/-! ### The TOC builder's anchor computation

For each entry `(num, title, is_sub)` the loop computes
`num_clean = num.rstrip('.')`, `anchor = 'sec_' + num_clean.replace('.', '_')`,
overridden by the literal `'sec_Appendix_' + num_clean` when
`num_clean in ('A', 'B')`. -/

/-- A TOC entry `(number, title, isSubLevel)`. -/
abbrev TOCEntry := String × String × Bool

/-- `num.rstrip('.')` from the TOC loop. -/
def numClean (num : List Char) : List Char := rstripDots num

/-- The anchor computed by the TOC loop for a given entry number. -/
def tocAnchorL (num : List Char) : List Char :=
  let nc := numClean num
  if nc = ['A'] || nc = ['B'] then "sec_Appendix_".data ++ nc
  else "sec_".data ++ replAll '.' '_' nc

def tocAnchor (e : TOCEntry) : String := ⟨tocAnchorL e.1.data⟩

/-- The static `toc_entries` list from the script. -/
def toc_entries : List TOCEntry := [
    ("1.", "Abstract", false),
    ("2.", "Introduction", false),
    ("2.1", "The Quantum Threat", true),
    ("2.2", "Why FROST and MuSig2 Die Under Quantum", true),
    ("2.3", "What is ML-DSA?", true),
    ("2.4", "The Fundamental Challenge", true),
    ("2.5", "PERMAFROST: The Solution", true),
    ("3.", "Account-Level Invisible Multisig", false),
    ("3.1", "Your Account IS the Multisig", true),
    ("3.2", "On-Chain Indistinguishability", true),
    ("3.3", "Comparison: Smart Contract vs Account-Level", true),
    ("3.4", "OPNet Integration", true),
    ("4.", "Comparison with Existing Approaches", false),
    ("4.1", "vs MuSig2", true),
    ("4.2", "vs FROST", true),
    ("4.3", "vs Smart Contract Multisig", true),
    ("4.4", "Feature Matrix", true),
    ("5.", "Mathematical Foundations", false),
    ("5.1", "The Polynomial Ring", true),
    ("5.2", "Number Theoretic Transform", true),
    ("5.3", "Modular Arithmetic", true),
    ("5.4", "Decomposition Functions", true),
    ("5.5", "Sampling Functions", true),
    ("6.", "ML-DSA (FIPS 204) Background", false),
    ("6.1", "Parameters", true),
    ("6.2", "Key Generation", true),
    ("6.3", "Signing Algorithm", true),
    ("6.4", "Verification", true),
    ("6.5", "Why Threshold is Hard", true),
    ("7.", "Threshold Construction Overview", false),
    ("7.1", "Hyperball Masking", true),
    ("7.2", "Additive Secret Sharing", true),
    ("7.3", "Combinatorial Approach", true),
    ("8.", "Key Generation Internals", false),
    ("8.1", "How Shares Are Constructed", true),
    ("8.2", "Gosper\x27s Hack for Subset Enumeration", true),
    ("8.3", "deriveUniformLeqEta", true),
    ("9.", "Dealerless DKG: The PERMAFROST Key Ceremony", false),
    ("9.1", "Design Decisions", true),
    ("9.2", "Hard Invariants", true),
    ("9.3", "Prerequisites", true),
    ("9.4", "The Four Phases", true),
    ("9.7", "Complaint and Abort Protocol", true),
    ("9.8", "Security Proofs", true),
    ("10.", "Hyperball Sampling", false),
    ("10.1", "The sampleHyperball Algorithm", true),
    ("10.2", "Box-Muller Transform", true),
    ("10.3", "BigInt Precision", true),
    ("10.4", "The C1 Fix", true),
    ("11.", "Share Recovery", false),
    ("12.", "The 3-Round Distributed Signing Protocol", false),
    ("12.1", "Round 1: Commitment", true),
    ("12.2", "Round 2: Reveal", true),
    ("12.3", "Round 3: Partial Response", true),
    ("12.4", "The H1 Timing Fix", true),
    ("13.", "Combine: Signature Finalization", false),
    ("14.", "Polynomial Packing: 23-Bit Encoding", false),
    ("15.", "Parameter Tables", false),
    ("16.", "Security Analysis and Hardening", false),
    ("17.", "Frontend Integration: Communication Layer", false),
    ("18.", "Float64 Precision Analysis", false),
    ("19.", "Architecture and Implementation", false),
    ("20.", "API Reference", false),
    ("21.", "Known Limitations", false),
    ("A.", "Notation Reference", false),
    ("B.", "Test Coverage", false)]

/-- Every in-body heading text of the script: the texts passed to
`section_heading`, `sub_heading` and `sub_sub_heading`, plus the
hard-coded `1. Abstract` heading. -/
def bodyHeadings : List String := [
    "1. Abstract",
    "2. Introduction",
    "2.1 The Quantum Threat to Threshold Signatures",
    "2.2 Why FROST and MuSig2 Die Under Quantum",
    "2.3 What is ML-DSA (FIPS 204)?",
    "2.4 The Fundamental Challenge: Non-Linearity",
    "2.5 PERMAFROST: The Complete Solution",
    "3. Account-Level Invisible Multisig",
    "3.1 Your Account IS the Multisig",
    "3.2 On-Chain Indistinguishability",
    "3.3 Comparison: Smart Contract vs Account-Level",
    "3.4 OPNet Integration",
    "4. Comparison with Existing Approaches",
    "4.1 vs MuSig2 (Bitcoin Schnorr)",
    "4.2 vs FROST (Schnorr Threshold)",
    "4.3 vs Smart Contract Multisig",
    "4.4 Feature Matrix",
    "5. Mathematical Foundations",
    "5.1 The Polynomial Ring R_q",
    "5.2 Number Theoretic Transform (NTT)",
    "5.3 Modular Arithmetic",
    "5.4 Decomposition Functions",
    "5.5 Sampling Functions",
    "6. ML-DSA (FIPS 204) Background",
    "6.1 Standard Parameters",
    "6.2 Key Generation",
    "6.3 Signing Algorithm (Rejection Sampling Loop)",
    "6.4 Verification",
    "6.5 Why Threshold is Hard for ML-DSA",
    "7. Threshold Construction Overview",
    "7.1 High-Level Protocol Flow",
    "7.2 The Hyperball Masking Breakthrough",
    "7.3 Additive Secret Sharing over Bitmasks",
    "8. Key Generation Internals",
    "8.1 How Shares Are Constructed (3-of-5 Example)",
    "8.2 Gosper\x27s Hack for Subset Enumeration",
    "8.3 deriveUniformLeqEta",
    "9. Dealerless DKG: The PERMAFROST Key Ceremony",
    "9.1 Design Decisions: Per-Bitmask Seed Derivation",
    "9.2 Hard Invariants",
    "9.3 Prerequisites",
    "9.4 The Four Phases",
    "9.5 Mask Cancellation: Why It Works",
    "9.6 Complaint and Abort Protocol",
    "9.7 Message Complexity",
    "9.8 Security Proofs",
    "Theorem 1: Correctness",
    "Theorem 2: Structural Secrecy",
    "Theorem 3: Forced Randomness",
    "Theorem 4: Public-Key Transcript Equivalence",
    "Theorem 5: Abort Safety and Session Isolation",
    "Theorem 6: LeqEta Bias Non-Exploitability",
    "10. Hyperball Sampling",
    "10.1 Motivation",
    "10.2 The sampleHyperball Algorithm",
    "10.3 Box-Muller Transform",
    "10.4 BigInt Precision for Uniform Floats",
    "10.5 The C1 Fix: Avoiding log(0)",
    "11. Share Recovery",
    "11.1 Sharing Patterns",
    "11.2 Permutation-Based Bitmask Translation",
    "11.3 Base Case: T = N",
    "11.4 Share Accumulation",
    "12. The 3-Round Distributed Signing Protocol",
    "12.1 Round 1: Commitment",
    "12.2 Round 2: Reveal",
    "12.3 Round 3: Partial Response",
    "12.4 The H1 Timing Fix",
    "13. Combine: Signature Finalization",
    "13.1 The Combine Algorithm",
    "13.2 Why This Produces Valid FIPS 204 Signatures",
    "14. Polynomial Packing: 23-Bit Encoding",
    "14.1 Encoding: polyPackW",
    "14.2 Decoding: polyUnpackW (with M7 Validation Fix)",
    "14.3 Bit Safety Analysis",
    "15. Parameter Tables",
    "15.1 ML-DSA-44 (K=4, L=4, NIST Level 2)",
    "15.2 ML-DSA-65 (K=6, L=5, NIST Level 3)",
    "15.3 ML-DSA-87 (K=8, L=7, NIST Level 5)",
    "15.4 Why N ≤ 6",
    "16. Security Analysis and Hardening",
    "16.1 C1 (Critical): Box-Muller NaN/Infinity from log(0)",
    "16.2 C8 (Critical): No Input Validation",
    "16.3 H1 (High): Timing Leak from Rejection Pattern",
    "16.4 H6 (High): No Zeroization of Secret Material",
    "16.5 M7 (Medium): No Coefficient Validation on Unpack",
    "16.6 Additional Hardening",
    "17. Frontend Integration: Communication Layer",
    "17.1 The Communication Problem",
    "17.2 Option 1: WebRTC DataChannels",
    "17.3 Recommended: Encrypted Mailbox over WebSocket",
    "17.4 E2E Encryption: Hybrid X25519 + ML-KEM (Dual System)",
    "18. Float64 Precision Analysis",
    "18.1 Where Float64 is Used",
    "18.2 Ring Arithmetic: Always Int32",
    "18.3 Platform Dependence of Transcendental Functions",
    "18.4 fvecRound Precision",
    "19. Architecture and Implementation",
    "19.1 Module Structure",
    "19.2 Class Design: ThresholdMLDSA",
    "19.3 State Management",
    "19.4 FVec Layout",
    "20. API Reference",
    "20.1 ThresholdMLDSA.create(securityLevel, T, N)",
    "20.2 keygen(seed?)",
    "20.3 round1(share, opts?)",
    "20.4 round2(share, activePartyIds, msg, hashes, state, opts?)",
    "20.5 round3(share, commitments, state1, state2)",
    "20.6 combine(publicKey, msg, commitments, responses, opts?)",
    "20.7 DKG Methods",
    "20.8 Byte Lengths",
    "21. Known Limitations",
    "21.1 No Side-Channel Protection in JavaScript",
    "21.2 Float64 Platform Dependence",
    "21.3 N ≤ 6 Cap",
    "21.4 Identifiable Aborts (Implicit Only)",
    "21.5 DKG Limitations",
    "21.6 Unaudited Implementation",
    "Appendix A: Notation Reference",
    "Appendix B: Test Coverage",
    "Threshold Tests (59 tests)",
    "Dealerless DKG Tests (55 tests)",
    "Standard ML-DSA Tests (21 tests)",
    "DKG Verification Points"]

/-- A TOC entry matches an in-body heading when the heading text starts
with the entry's number followed by a space (for appendix entries: when
it starts with `Appendix ` followed by the bare letter). -/
def tocMatches (e : TOCEntry) (h : String) : Bool :=
  let nc := numClean e.1.data
  if nc = ['A'] || nc = ['B'] then ("Appendix ".data ++ nc).isPrefixOf h.data
  else (e.1.data ++ [' ']).isPrefixOf h.data


/-! ### The buffered-heading composer

The script keeps a module-level list `_pending_heading` of flowables and
an output list `story`.  `_flush_heading` appends the pending flowables
one by one (unbonded); `_flush_heading_with c` appends a single
`KeepTogether` group made of the pending flowables plus `c` (or just `c`
when nothing is pending).  `section_heading` / `sub_heading` /
`sub_sub_heading` first flush unbonded, then (level 1 only) append a
`PageBreak` directly to the story, then load the level's decoration set
into the buffer.  `spacer` flushes unbonded and appends a `Spacer`.
The script ends with a final `_flush_heading()`. -/

/-- A flow block (ReportLab flowable) as produced by the composer. -/
inductive Block where
  | pageBreak : Block
  | paragraph (text style : String) : Block
  | accentBar : Block
  | spacerB (h : Nat) : Block
  | callout (text severity title : String) : Block
  | codeBlock (text lang : String) : Block
deriving DecidableEq, Repr

/-- A stream item: either a bare block or an atomic `KeepTogether`
group of blocks. -/
inductive Item where
  | block (b : Block) : Item
  | group (bs : List Block) : Item
deriving DecidableEq, Repr

/-- The blocks an item contributes to the rendered stream. -/
def Item.blocks : Item → List Block
  | .block b => [b]
  | .group bs => bs

/-- Composer state: the output `story` and the `_pending_heading`
buffer. -/
structure CState where
  story : List Item
  pending : List Block
deriving DecidableEq, Repr

/-- The initial composer state: empty story, empty buffer. -/
def initState : CState := ⟨[], []⟩

/-- `_flush_heading()`: append pending flowables unbonded, clear the
buffer. -/
def flushHeading (s : CState) : CState :=
  if s.pending.isEmpty then s
  else ⟨s.story ++ s.pending.map Item.block, []⟩

/-- `_flush_heading_with(c)`: append one `KeepTogether` group of the
pending flowables plus `c`; or just `c` when nothing is pending. -/
def flushHeadingWith (s : CState) (c : Block) : CState :=
  if s.pending.isEmpty then ⟨s.story ++ [Item.block c], []⟩
  else ⟨s.story ++ [Item.group (s.pending ++ [c])], []⟩

/-- The anchored title paragraph `<a name="anchor"/>text`. -/
def anchoredTitle (text : String) (style : String) : Block :=
  .paragraph ("<a name=\x22" ++ make_anchor text ++ "\x22/>" ++ text) style

/-- The decoration set a heading call loads into `_pending_heading`:
level 1: anchored h1 title, accent bar, spacer 12;
level 2: spacer 16, anchored h2 title, spacer 6;
level 3 (and anything else): spacer 12, anchored h3 title, spacer 4. -/
def decos (level : Nat) (text : String) : List Block :=
  match level with
  | 1 => [anchoredTitle text "h1", .accentBar, .spacerB 12]
  | 2 => [.spacerB 16, anchoredTitle text "h2", .spacerB 6]
  | _ => [.spacerB 12, anchoredTitle text "h3", .spacerB 4]

/-- One composer operation issued by the client sequence. -/
inductive Op where
  | heading (level : Nat) (text : String) : Op
  | content (b : Block) : Op
  | spc (h : Nat) : Op
deriving DecidableEq, Repr

/-- The state transition of a single operation, mirroring
`section_heading` / `sub_heading` / `sub_sub_heading`,
the content helpers (`body`, `analogy`, `code`, `table`, …, all of
which call `_flush_heading_with`), and `spacer`. -/
def step (s : CState) : Op → CState
  | .heading level text =>
    let s1 := flushHeading s
    if level = 1 then
      ⟨s1.story ++ [Item.block .pageBreak], decos 1 text⟩
    else
      ⟨s1.story, decos level text⟩
  | .content b => flushHeadingWith s b
  | .spc h =>
    let s1 := flushHeading s
    ⟨s1.story ++ [Item.block (.spacerB h)], s1.pending⟩

/-- Run a call sequence from a given state. -/
def runFrom (s : CState) : List Op → CState
  | [] => s
  | op :: ops => runFrom (step s op) ops

/-- Run a call sequence from the initial state. -/
def runOps (ops : List Op) : CState := runFrom initState ops

/-- Run a call sequence and finish with the script's trailing
`_flush_heading()` (the finalize step). -/
def finalizeRun (ops : List Op) : List Item :=
  (flushHeading (runOps ops)).story

/-- The blocks an operation introduces into the document. -/
def producedOf : Op → List Block
  | .heading level text => if level = 1 then .pageBreak :: decos 1 text else decos level text
  | .content b => [b]
  | .spc h => [.spacerB h]

/-- Flatten a stream to its blocks, erasing group boundaries. -/
def streamBlocks : List Item → List Block
  | [] => []
  | i :: items => i.blocks ++ streamBlocks items

/-- The concatenation of the blocks each operation of a sequence
produces. -/
def producedBlocks : List Op → List Block
  | [] => []
  | op :: ops => producedOf op ++ producedBlocks ops

/-- The part of the derived anchor after the `sec_` prefix. -/
def anchorSuffix (s : String) : List Char :=
  match matchNumbering (stripTagsL s.data) with
  | some tok => normalizeTok tok
  | none => fallbackWords (stripTagsL s.data)


/-! ## Helper lemmas -/

theorem make_anchor_eq (s : String) :
    make_anchor s = ⟨"sec_".data ++ anchorSuffix s⟩ := by
  cases h : matchNumbering (stripTagsL s.data) <;>
    simp [make_anchor, makeAnchorL, anchorSuffix, h]

theorem flushHeading_pending (s : CState) : (flushHeading s).pending = [] := by
  simp only [flushHeading]
  split
  · next h => exact List.isEmpty_iff.mp h
  · rfl

theorem step_pending_inv (s : CState) (op : Op) :
    (step s op).pending = [] ∨
      ∃ level text, (step s op).pending = decos level text := by
  cases op with
  | heading level text =>
    right
    simp only [step]
    split
    · exact ⟨1, text, rfl⟩
    · exact ⟨level, text, rfl⟩
  | content b =>
    left
    simp only [step, flushHeadingWith]
    split <;> rfl
  | spc h =>
    left
    simp only [step]
    exact flushHeading_pending s

theorem runFrom_pending_inv :
    ∀ (ops : List Op) (s : CState),
      (s.pending = [] ∨ ∃ level text, s.pending = decos level text) →
      ((runFrom s ops).pending = [] ∨
        ∃ level text, (runFrom s ops).pending = decos level text) := by
  intro ops
  induction ops with
  | nil => intro s h; exact h
  | cons op ops ih => intro s _; exact ih (step s op) (step_pending_inv s op)

theorem streamBlocks_append (a b : List Item) :
    streamBlocks (a ++ b) = streamBlocks a ++ streamBlocks b := by
  induction a with
  | nil => rfl
  | cons i a ih => simp [streamBlocks, ih]

theorem streamBlocks_map_block (l : List Block) :
    streamBlocks (l.map Item.block) = l := by
  induction l with
  | nil => rfl
  | cons b l ih => simp [streamBlocks, Item.blocks, ih]

theorem flushHeading_blocks (s : CState) :
    streamBlocks (flushHeading s).story = streamBlocks s.story ++ s.pending := by
  simp only [flushHeading]
  split
  · next h => simp [List.isEmpty_iff.mp h]
  · simp [streamBlocks_append, streamBlocks_map_block]

theorem step_blocks (s : CState) (op : Op) :
    streamBlocks (step s op).story ++ (step s op).pending =
      streamBlocks s.story ++ s.pending ++ producedOf op := by
  cases op with
  | heading level text =>
    simp only [step, producedOf]
    split
    · simp [streamBlocks_append, flushHeading_blocks, streamBlocks, Item.blocks]
    · simp [flushHeading_blocks, List.append_assoc]
  | content b =>
    simp only [step, flushHeadingWith, producedOf]
    split
    · next h =>
      simp [streamBlocks_append, streamBlocks, Item.blocks, List.isEmpty_iff.mp h]
    · simp [streamBlocks_append, streamBlocks, Item.blocks, List.append_assoc]
  | spc h =>
    simp only [step, producedOf]
    simp [streamBlocks_append, flushHeading_blocks, flushHeading_pending,
      streamBlocks, Item.blocks, List.append_assoc]

theorem runFrom_blocks :
    ∀ (ops : List Op) (s : CState),
      streamBlocks (runFrom s ops).story ++ (runFrom s ops).pending =
        streamBlocks s.story ++ s.pending ++ producedBlocks ops := by
  intro ops
  induction ops with
  | nil => intro s; simp [runFrom, producedBlocks]
  | cons op ops ih =>
    intro s
    calc streamBlocks (runFrom (step s op) ops).story ++ (runFrom (step s op) ops).pending
        = streamBlocks (step s op).story ++ (step s op).pending ++ producedBlocks ops :=
          ih (step s op)
      _ = streamBlocks s.story ++ s.pending ++ (producedOf op ++ producedBlocks ops) := by
          rw [step_blocks]; simp [List.append_assoc]

/-! ## The claims -/

set_option maxRecDepth 16384

/-- C1: for every entry of the static TOC list that has a matching
in-body heading, the anchor the TOC loop computes for the entry equals
the anchor `_make_anchor` derives from that heading's text, so every
generated TOC hyperlink targets an anchor the composer actually
emits. -/
theorem toc_anchor_agreement :
    ∀ e ∈ toc_entries, ∀ h ∈ bodyHeadings,
      tocMatches e h = true → tocAnchor e = make_anchor h := by decide

/-- Witness for C1: the entry `("2.1", "The Quantum Threat", true)`
matches the in-body heading `2.1 The Quantum Threat to Threshold
Signatures` and both sides compute `sec_2_1`. -/
theorem toc_anchor_agreement_witness :
    tocAnchor ("2.1", "The Quantum Threat", true) =
      make_anchor "2.1 The Quantum Threat to Threshold Signatures" :=
  toc_anchor_agreement ("2.1", "The Quantum Threat", true) (by decide)
    "2.1 The Quantum Threat to Threshold Signatures" (by decide) (by decide)

/-- C2 counterexample: the sequence `heading(1, "X"); content(P)` from an
empty buffer does not append a single keep-together group containing the
page break: the page break is appended directly to the stream, outside
the group that `_flush_heading_with` builds. -/
theorem heading_then_content_counterexample :
    (runOps [.heading 1 "X", .content (.paragraph "P" "body")]).story ≠
      [Item.group (Block.pageBreak :: decos 1 "X" ++ [Block.paragraph "P" "body"])] := by
  decide

/-- C2 (amended): the sequence `heading(1, "X"); content(P)` from an
empty buffer appends exactly a bare page break followed by one atomic
keep-together group `[anchored title, divider, spacer, P]`, and nothing
else; the page break precedes the group instead of being inside it. -/
theorem heading_then_content_amended :
    ∀ (st : CState) (X : String) (b : Block), st.pending = [] →
      runFrom st [.heading 1 X, .content b] =
        ⟨st.story ++ [Item.block .pageBreak, Item.group (decos 1 X ++ [b])], []⟩ := by
  intro st X b h
  simp [runFrom, step, flushHeading, flushHeadingWith, h, decos]

/-- Witness for the amended C2, at the concrete initial state with
heading text `X` and paragraph content `P`. -/
theorem heading_then_content_amended_witness :
    runFrom initState [.heading 1 "X", .content (.paragraph "P" "body")] =
      ⟨[Item.block .pageBreak,
        Item.group (decos 1 "X" ++ [Block.paragraph "P" "body"])], []⟩ :=
  heading_then_content_amended initState "X" (.paragraph "P" "body") rfl

/-- C3: for every appendix TOC entry whose number reduces to the bare
letter `A` or `B`, the hardcoded literal anchor `sec_Appendix_<L>` of
the TOC loop equals the anchor the generic `Appendix <Letter>` regex
branch of `_make_anchor` derives from the matching in-body heading; in
particular both paths yield `sec_Appendix_A` for the appendix-A entry
and heading. -/
theorem appendix_anchor_coherence :
    (∀ e ∈ toc_entries,
      (numClean e.1.data = ['A'] ∨ numClean e.1.data = ['B']) →
      ∀ h ∈ bodyHeadings, tocMatches e h = true →
        tocAnchor e = make_anchor h ∧
        tocAnchor e = ⟨"sec_Appendix_".data ++ numClean e.1.data⟩) ∧
    make_anchor "Appendix A: Notation Reference" = "sec_Appendix_A" ∧
    tocAnchor ("A.", "Notation Reference", false) = "sec_Appendix_A" :=
  ⟨by decide, by decide, by decide⟩

/-- Witness for C3: instantiated at the entry
`("A.", "Notation Reference", false)` and the in-body heading
`Appendix A: Notation Reference`. -/
theorem appendix_anchor_coherence_witness :
    tocAnchor ("A.", "Notation Reference", false) =
      make_anchor "Appendix A: Notation Reference" ∧
    tocAnchor ("A.", "Notation Reference", false) =
      ⟨"sec_Appendix_".data ++ numClean "A.".data⟩ :=
  appendix_anchor_coherence.1 ("A.", "Notation Reference", false) (by decide)
    (Or.inl (by decide)) "Appendix A: Notation Reference" (by decide) (by decide)

/-- C4: whenever the numbering regex matches a leading token of the
tag-stripped heading text, `_make_anchor` returns `sec_` followed by the
token normalized by the chain strip / rstrip dots / dots and spaces to
underscores / drop colons; in particular
`derive("2.1 The Quantum Threat") = "sec_2_1"`. -/
theorem numbered_anchor_derivation :
    (∀ (s : String) (tok : List Char),
        matchNumbering (stripTagsL s.data) = some tok →
        make_anchor s = ⟨"sec_".data ++ normalizeTok tok⟩) ∧
    make_anchor "2.1 The Quantum Threat" = "sec_2_1" := by
  constructor
  · intro s tok h
    simp [make_anchor, makeAnchorL, h]
  · decide

/-- Witness for C4: the token matched in `2.1 The Quantum Threat` is
`2.1 ` and the anchor is its normalization prefixed with `sec_`. -/
theorem numbered_anchor_derivation_witness :
    make_anchor "2.1 The Quantum Threat" =
      ⟨"sec_".data ++ normalizeTok "2.1 ".data⟩ :=
  numbered_anchor_derivation.1 "2.1 The Quantum Threat" "2.1 ".data (by decide)

/-- C5: when no numbering token matches, `_make_anchor` strips all
non-alphanumeric/non-whitespace characters, splits into words, keeps the
first four, lower-cases them and joins them with underscores; in
particular
`derive("No Numbering Here At All") = "sec_no_numbering_here_at"`. -/
theorem fallback_anchor_derivation :
    (∀ s : String,
        matchNumbering (stripTagsL s.data) = none →
        make_anchor s = ⟨"sec_".data ++ fallbackWords (stripTagsL s.data)⟩) ∧
    make_anchor "No Numbering Here At All" = "sec_no_numbering_here_at" := by
  constructor
  · intro s h
    simp [make_anchor, makeAnchorL, h]
  · decide

/-- Witness for C5, instantiated at the unnumbered heading text used in
the specification. -/
theorem fallback_anchor_derivation_witness :
    make_anchor "No Numbering Here At All" =
      ⟨"sec_".data ++ fallbackWords (stripTagsL "No Numbering Here At All".data)⟩ :=
  fallback_anchor_derivation.1 "No Numbering Here At All" (by decide)

/-- C6: the pending-heading buffer always holds either nothing or
exactly one heading's decoration set, because every heading operation
flushes the buffer before loading its own decorations; in particular
`heading(1, "X"); heading(1, "Y")` emits X's decorations unbonded (plus
the page breaks the two level-1 calls append directly) and leaves
exactly Y's decorations buffered. -/
theorem buffer_single_occupancy :
    (∀ ops : List Op, (runOps ops).pending = [] ∨
      ∃ level text, (runOps ops).pending = decos level text) ∧
    (∀ (st : CState) (X Y : String), st.pending = [] →
      runFrom st [.heading 1 X, .heading 1 Y] =
        ⟨st.story ++ [Item.block .pageBreak] ++ (decos 1 X).map Item.block ++
          [Item.block .pageBreak], decos 1 Y⟩) := by
  constructor
  · intro ops
    exact runFrom_pending_inv ops initState (Or.inl rfl)
  · intro st X Y h
    simp [runFrom, step, flushHeading, h, decos]

/-- Witness for C6's concrete part, from the initial state with heading
texts `X` and `Y`. -/
theorem buffer_single_occupancy_witness :
    runFrom initState [.heading 1 "X", .heading 1 "Y"] =
      ⟨[Item.block .pageBreak] ++ (decos 1 "X").map Item.block ++
        [Item.block .pageBreak], decos 1 "Y"⟩ := by
  have h := buffer_single_occupancy.2 initState "X" "Y" rfl
  simpa using h

/-- C7: `spacer(h)` always flushes any pending heading decorations
unbonded (as bare blocks, not wrapped in a group) and then appends a
standalone spacer block at the top level of the stream, never inside a
keep-together group. -/
theorem explicit_spacer_unbonded :
    ∀ (s : CState) (h : Nat),
      (step s (.spc h)).story =
        s.story ++ s.pending.map Item.block ++ [Item.block (.spacerB h)] ∧
      (step s (.spc h)).pending = [] := by
  intro s h
  constructor
  · simp only [step, flushHeading]
    split
    · next he => simp [List.isEmpty_iff.mp he]
    · simp [List.append_assoc]
  · simp only [step]
    exact flushHeading_pending s

/-- C8: across any call sequence ended by the final flush, the flattened
output stream is exactly the concatenation of the blocks each operation
produced: nothing is duplicated and nothing is lost; in particular
`heading(1, "X")` followed immediately by the final flush emits X's
decorations exactly once. -/
theorem stream_conservation :
    (∀ ops : List Op, streamBlocks (finalizeRun ops) = producedBlocks ops) ∧
    streamBlocks (finalizeRun [.heading 1 "X"]) = .pageBreak :: decos 1 "X" := by
  constructor
  · intro ops
    have h := runFrom_blocks ops initState
    simp only [finalizeRun, runOps] at *
    rw [flushHeading_blocks]
    simpa using h
  · decide

/-- C9: anchor derivation is total: for every input string (empty,
markup-only, or unnumbered) `_make_anchor` returns a `sec_`-prefixed
anchor string, degrading to the word-derived fallback whenever no
numbering token matches. -/
theorem anchor_derivation_total :
    ∀ s : String,
      (make_anchor s).data = "sec_".data ++ anchorSuffix s ∧
      (matchNumbering (stripTagsL s.data) = none →
        make_anchor s = ⟨"sec_".data ++ fallbackWords (stripTagsL s.data)⟩) := by
  intro s
  constructor
  · rw [make_anchor_eq]
  · intro h
    simp [make_anchor, makeAnchorL, h]

/-- Witness for C9, instantiated at the empty string (whose fallback
anchor is the bare prefix `sec_`), with the no-match hypothesis
discharged by evaluation. -/
theorem anchor_derivation_total_witness :
    (make_anchor "").data = "sec_".data ++ anchorSuffix "" ∧
    make_anchor "" = ⟨"sec_".data ++ fallbackWords (stripTagsL "".data)⟩ :=
  ⟨(anchor_derivation_total "").1, (anchor_derivation_total "").2 (by decide)⟩


/-! ## Character-set lemmas for the anchor-charset invariant -/

theorem afterGt_subset :
    ∀ (l l' : List Char), afterGt l = some l' → ∀ c ∈ l', c ∈ l := by
  intro l
  induction l with
  | nil => intro l' h; simp [afterGt] at h
  | cons x rest ih =>
    intro l' h c hc
    simp only [afterGt] at h
    split at h
    · cases h; exact List.mem_cons_of_mem x hc
    · exact List.mem_cons_of_mem x (ih l' h c hc)

theorem tryTag_subset (l l' : List Char) (h : tryTag l = some l') :
    ∀ c ∈ l', c ∈ l := by
  cases l with
  | nil => simp [tryTag] at h
  | cons x rest =>
    simp only [tryTag] at h
    split at h
    · cases h
    · intro c hc
      exact List.mem_cons_of_mem x (afterGt_subset rest l' h c hc)

theorem stripTagsFuel_subset :
    ∀ (n : Nat) (l : List Char), ∀ c ∈ stripTagsFuel n l, c ∈ l := by
  intro n
  induction n with
  | zero => intro l c hc; exact hc
  | succ n ih =>
    intro l c hc
    cases l with
    | nil => simp [stripTagsFuel] at hc
    | cons x rest =>
      simp only [stripTagsFuel] at hc
      split at hc
      · split at hc
        · next rest' heq =>
          exact List.mem_cons_of_mem x (tryTag_subset rest rest' heq c (ih rest' c hc))
        · rcases List.mem_cons.mp hc with h | h
          · exact h ▸ List.mem_cons_self x rest
          · exact List.mem_cons_of_mem x (ih rest c h)
      · rcases List.mem_cons.mp hc with h | h
        · exact h ▸ List.mem_cons_self x rest
        · exact List.mem_cons_of_mem x (ih rest c h)

theorem stripTagsL_subset (l : List Char) : ∀ c ∈ stripTagsL l, c ∈ l :=
  stripTagsFuel_subset l.length l

theorem appendixLetters : ∀ c ∈ ("Appendix".data : List Char), tokChar c = true := by
  decide

theorem numToken_chars (l tok : List Char) (h : numToken l = some tok) :
    ∀ c ∈ tok, tokChar c = true ∧ c ∈ l := by
  simp only [numToken] at h
  split at h
  · cases h
  · split at h
    · next r2 heq =>
      cases h
      intro c hc
      have hr2l : ∀ x ∈ r2, x ∈ l := fun x hx =>
        (List.dropWhile_sublist _).mem (heq ▸ List.mem_cons_of_mem '.' hx)
      rcases List.mem_append.mp hc with hleft | hw
      · rcases List.mem_append.mp hleft with hds | hdot
        · exact ⟨by simp [tokChar, List.mem_takeWhile_imp hds],
            (List.takeWhile_sublist _).mem hds⟩
        · rcases List.mem_cons.mp hdot with hdot1 | hdd
          · subst hdot1
            exact ⟨by simp [tokChar],
              (List.dropWhile_sublist _).mem (heq ▸ List.mem_cons_self '.' r2)⟩
          · have hp := List.mem_takeWhile_imp hdd
            exact ⟨by simp [tokChar, hp],
              hr2l c ((List.takeWhile_sublist _).mem hdd)⟩
      · have hsp := List.mem_takeWhile_imp hw
        exact ⟨by simp [tokChar, hsp],
          hr2l c ((List.dropWhile_sublist _).mem ((List.takeWhile_sublist _).mem hw))⟩
    · cases h

theorem appendixToken_chars (l tok : List Char) (h : appendixToken l = some tok) :
    ∀ c ∈ tok, tokChar c = true ∧ c ∈ l := by
  simp only [appendixToken] at h
  split at h
  · next htake =>
    split at h
    · cases h
    · split at h
      · next c0 d r3 heq =>
        split at h
        · next hcd =>
          cases h
          intro c hc
          have hdrop : ∀ x ∈ (l.drop 8).dropWhile pySpace, x ∈ l := by
            intro x hx
            exact (List.drop_sublist 8 l).mem ((List.dropWhile_sublist _).mem hx)
          rcases List.mem_append.mp hc with happ | hrest
          · rcases List.mem_append.mp happ with hA | hw1
            · exact ⟨appendixLetters c hA, List.mem_of_mem_take (htake ▸ hA)⟩
            · have hsp := List.mem_takeWhile_imp hw1
              exact ⟨by simp [tokChar, hsp],
                (List.drop_sublist 8 l).mem ((List.takeWhile_sublist _).mem hw1)⟩
          · rcases List.mem_cons.mp hrest with hc0 | hrest2
            · subst hc0
              have hup := ((Bool.and_eq_true _ _).mp hcd).1
              exact ⟨by simp [tokChar, hup], hdrop c (heq ▸ List.mem_cons_self _ _)⟩
            · rcases List.mem_cons.mp hrest2 with hcd2 | hw2
              · subst hcd2
                have hdot2 := ((Bool.and_eq_true _ _).mp hcd).2
                refine ⟨?_, hdrop c (heq ▸ List.mem_cons_of_mem _ (List.mem_cons_self _ _))⟩
                rcases (Bool.or_eq_true _ _).mp hdot2 with h1 | h1 <;>
                  rw [of_decide_eq_true h1] <;> decide
              · have hsp := List.mem_takeWhile_imp hw2
                refine ⟨by simp [tokChar, hsp], ?_⟩
                have hm : c ∈ r3 := (List.takeWhile_sublist _).mem hw2
                exact hdrop c (heq ▸ List.mem_cons_of_mem _ (List.mem_cons_of_mem _ hm))
        · cases h
      · cases h
  · cases h

theorem matchNumbering_chars (l tok : List Char) (h : matchNumbering l = some tok) :
    ∀ c ∈ tok, tokChar c = true ∧ c ∈ l := by
  simp only [matchNumbering] at h
  split at h
  · next t heq => cases h; exact numToken_chars l tok heq
  · exact appendixToken_chars l tok h

theorem mem_pyStripL (l : List Char) : ∀ c ∈ pyStripL l, c ∈ l := by
  intro c hc
  simp only [pyStripL] at hc
  have h1 := (List.dropWhile_sublist (l := (l.dropWhile pySpace).reverse) pySpace).mem
    (List.mem_reverse.mp hc)
  exact (List.dropWhile_sublist pySpace).mem (List.mem_reverse.mp h1)

theorem mem_rstripDots (l : List Char) : ∀ c ∈ rstripDots l, c ∈ l := by
  intro c hc
  simp only [rstripDots] at hc
  exact List.mem_reverse.mp ((List.dropWhile_sublist _).mem (List.mem_reverse.mp hc))

theorem mem_replAll (a b : Char) (l : List Char) :
    ∀ c ∈ replAll a b l, c = b ∨ (c ∈ l ∧ c ≠ a) := by
  intro c hc
  simp only [replAll, List.mem_map] at hc
  obtain ⟨x, hx, hxc⟩ := hc
  by_cases hxa : x = a
  · left
    rw [if_pos hxa] at hxc
    exact hxc.symm
  · right
    rw [if_neg hxa] at hxc
    exact ⟨hxc ▸ hx, hxc ▸ hxa⟩

theorem mem_removeAll (a : Char) (l : List Char) :
    ∀ c ∈ removeAll a l, c ∈ l ∧ c ≠ a := by
  intro c hc
  simp only [removeAll] at hc
  have h := List.mem_filter.mp hc
  simpa using h

theorem pyDigit_ascii (c : Char) (h : c.toNat < 128) :
    pyDigit c = isDigitA c := by
  simp only [pyDigit]
  rw [if_pos (by omega)]

theorem normalizeTok_chars (tok : List Char)
    (hok : ∀ c ∈ tok, tokChar c = true)
    (hascii : ∀ c ∈ tok, c.toNat < 128)
    (hsp : ∀ c ∈ tok, pySpace c = true → c = ' ') :
    ∀ c ∈ normalizeTok tok, anchorChar c = true := by
  intro c hc
  simp only [normalizeTok] at hc
  obtain ⟨hc2, hcolon⟩ := mem_removeAll ':' _ c hc
  rcases mem_replAll ' ' '_' _ c hc2 with h | ⟨hc3, hspace⟩
  · simp [anchorChar, h]
  rcases mem_replAll '.' '_' _ c hc3 with h | ⟨hc4, hdot⟩
  · simp [anchorChar, h]
  have hmem : c ∈ tok := mem_pyStripL tok c (mem_rstripDots _ c hc4)
  have h1 := hok c hmem
  have h2 := hsp c hmem
  simp only [tokChar, Bool.or_eq_true, decide_eq_true_eq] at h1
  simp only [anchorChar, isAsciiAlnum, Bool.or_eq_true, decide_eq_true_eq]
  rcases h1 with ((((h1 | h1) | h1) | h1) | h1) | h1
  · rw [pyDigit_ascii c (hascii c hmem)] at h1
    exact Or.inl (Or.inl (Or.inl h1))
  · exact absurd h1 hdot
  · exact absurd (h2 h1) hspace
  · exact Or.inl (Or.inl (Or.inr h1))
  · exact Or.inl (Or.inr h1)
  · exact absurd h1 hcolon

theorem char_toNat_ofNat (n : Nat) (h : n < 55296) : (Char.ofNat n).toNat = n := by
  simp [Char.ofNat, Nat.isValidChar, h, Char.ofNatAux, Char.toNat, UInt32.toNat]

theorem pyLower_alnum (c : Char) (h : isAsciiAlnum c = true) :
    isAsciiAlnum (pyLowerChar c) = true := by
  simp only [pyLowerChar]
  split
  · next hu =>
    simp only [isUpperA, Bool.and_eq_true, decide_eq_true_eq] at hu
    have hv : c.toNat + 32 < 55296 := by omega
    simp only [isAsciiAlnum, isDigitA, isUpperA, isLowerA, Bool.or_eq_true,
      Bool.and_eq_true, decide_eq_true_eq, char_toNat_ofNat _ hv]
    omega
  · exact h

theorem splitWsAux_chars (R : Char → Prop) :
    ∀ (l acc : List Char), (∀ c ∈ l, R c) →
      (∀ c ∈ acc, R c ∧ pySpace c = false) →
      ∀ w ∈ splitWsAux l acc, ∀ c ∈ w, R c ∧ pySpace c = false := by
  intro l
  induction l with
  | nil =>
    intro acc _ hacc w hw c hc
    simp only [splitWsAux] at hw
    split at hw
    · simp at hw
    · simp only [List.mem_singleton] at hw
      exact hacc c (List.mem_reverse.mp (hw ▸ hc))
  | cons x rest ih =>
    intro acc hl hacc w hw c hc
    simp only [splitWsAux] at hw
    by_cases hx : pySpace x = true
    · rw [if_pos hx] at hw
      split at hw
      · exact ih [] (fun c hc => hl c (List.mem_cons_of_mem x hc)) (by simp) w hw c hc
      · rcases List.mem_cons.mp hw with hw1 | hw2
        · exact hacc c (List.mem_reverse.mp (hw1 ▸ hc))
        · exact ih [] (fun c hc => hl c (List.mem_cons_of_mem x hc)) (by simp) w hw2 c hc
    · rw [if_neg hx] at hw
      refine ih (x :: acc) (fun c hc => hl c (List.mem_cons_of_mem x hc)) ?_ w hw c hc
      intro c hc
      rcases List.mem_cons.mp hc with h | h
      · subst h
        exact ⟨hl c (List.mem_cons_self c rest), by simpa using hx⟩
      · exact hacc c h

theorem joinUnd_chars (P : Char → Prop) :
    ∀ ws : List (List Char), (∀ w ∈ ws, ∀ c ∈ w, P c) →
      ∀ c ∈ joinUnd ws, P c ∨ c = '_' := by
  intro ws
  induction ws with
  | nil => intro _ c hc; simp [joinUnd] at hc
  | cons w ws ih =>
    intro hws c hc
    cases ws with
    | nil => exact Or.inl (hws w (List.mem_cons_self _ _) c hc)
    | cons w2 ws2 =>
      simp only [joinUnd] at hc
      rcases List.mem_append.mp hc with h | h
      · exact Or.inl (hws w (List.mem_cons_self _ _) c h)
      · rcases List.mem_cons.mp h with h1 | h2
        · exact Or.inr h1
        · exact ih (fun w hw => hws w (List.mem_cons_of_mem _ hw)) c h2

theorem fallbackWords_chars (clean : List Char) :
    ∀ c ∈ fallbackWords clean, anchorChar c = true := by
  intro c hc
  simp only [fallbackWords] at hc
  have hwords : ∀ w ∈ ((splitWs (clean.filter (fun c => isAsciiAlnum c || pySpace c))).take 4).map
      (fun w => w.map pyLowerChar), ∀ x ∈ w, isAsciiAlnum x = true := by
    intro w hw x hx
    rcases List.mem_map.mp hw with ⟨w0, hw0, hww⟩
    rcases List.mem_map.mp (hww ▸ hx) with ⟨x0, hx0, hxx⟩
    have h0 := splitWsAux_chars (fun c => (isAsciiAlnum c || pySpace c) = true)
      (clean.filter (fun c => isAsciiAlnum c || pySpace c)) []
      (fun c hcf => (List.mem_filter.mp hcf).2) (by simp)
      w0 (List.mem_of_mem_take hw0) x0 hx0
    have halnum : isAsciiAlnum x0 = true := by
      rcases (Bool.or_eq_true _ _).mp h0.1 with h | h
      · exact h
      · rw [h0.2] at h; cases h
    exact hxx ▸ pyLower_alnum x0 halnum
  rcases joinUnd_chars (fun x => isAsciiAlnum x = true) _ hwords c hc with h | h
  · simp [anchorChar, h]
  · simp [anchorChar, h]

set_option maxRecDepth 16384

/-- C10 counterexample: the input whose characters are the Arabic-Indic
digit one (U+0661), a dot, a space and the letter x has only ordinary
spaces as whitespace, yet `_make_anchor` returns the anchor `sec_`
followed by U+0661: the regex `\d` matches the Unicode digit, the
normalization chain keeps it, and the resulting anchor contains a
character that is not an ASCII letter, digit or underscore. -/
theorem anchor_charset_counterexample :
    (∀ c ∈ "١. x".data, pySpace c = true → c = ' ') ∧
    make_anchor "١. x" = "sec_١" ∧
    '١' ∈ (make_anchor "١. x").data ∧
    anchorChar '١' = false := by decide

/-- C10 (amended): for every input string all of whose characters are
ASCII and whose whitespace characters are all ordinary spaces,
`_make_anchor` returns `sec_` followed only by ASCII letters, digits
and underscores — never spaces, dots, colons or markup characters — so
the result is safe to embed verbatim inside an `<a name="..."/>`
attribute.  (Non-ASCII input can leak Unicode decimal digits, matched
by the regex `\d`, into the anchor.) -/
theorem anchor_charset_invariant :
    ∀ s : String, (∀ c ∈ s.data, c.toNat < 128) →
      (∀ c ∈ s.data, pySpace c = true → c = ' ') →
      (make_anchor s).data = "sec_".data ++ anchorSuffix s ∧
      ∀ c ∈ anchorSuffix s, anchorChar c = true := by
  intro s hascii hs
  refine ⟨by rw [make_anchor_eq], ?_⟩
  intro c hc
  rcases h : matchNumbering (stripTagsL s.data) with _ | tok
  · rw [anchorSuffix, h] at hc
    exact fallbackWords_chars _ c hc
  · rw [anchorSuffix, h] at hc
    refine normalizeTok_chars tok ?_ ?_ ?_ c hc
    · intro c hc
      exact (matchNumbering_chars _ tok h c hc).1
    · intro c hc
      exact hascii c (stripTagsL_subset s.data c (matchNumbering_chars _ tok h c hc).2)
    · intro c hc hsp
      exact hs c (stripTagsL_subset s.data c (matchNumbering_chars _ tok h c hc).2) hsp

/-- Witness for the amended C10, instantiated at the heading text
`2.1 The Quantum Threat` (all ASCII, all whitespace ordinary
spaces). -/
theorem anchor_charset_invariant_witness :
    (make_anchor "2.1 The Quantum Threat").data =
        "sec_".data ++ anchorSuffix "2.1 The Quantum Threat" ∧
      ∀ c ∈ anchorSuffix "2.1 The Quantum Threat", anchorChar c = true :=
  anchor_charset_invariant "2.1 The Quantum Threat" (by decide) (by decide)

end Permafrost
